import Mathlib

/-!
# Log-broadcast consumption ledger (core/services/log/orm.go)

A shallow embedding of the two operations of the `orm` type,
`WasBroadcastConsumed` and `MarkBroadcastConsumed`, together with a model of
the `log_broadcasts` table they talk to.

The Go methods only build one SQL statement each, hand it to the database
handle `o.db`, and map what comes back to their return values.  The embedding
keeps that shape:

* `Driver σ` is the database handle: it answers the SELECT of
  `WasBroadcastConsumed` and the INSERT of `MarkBroadcastConsumed`, threading a
  store state `σ`.  The two operations are defined for an arbitrary driver, so
  the properties of the result mapping hold for whatever the store answers.
* `Store` with `sqlStore` is a relational model of the table, used for the
  properties that speak about records.
-/

namespace LogORM

/-! ## Values -/

/-- The block hash `common.Hash` (32 bytes), read as a number. -/
abbrev Hash := Nat

/-- Modelled from the spec: the legacy identifier type `models.JobID`, which
is declared outside orm.go, is an opaque value of the older scheme; its raw
value is read as a number.  The type is the dynamic value passed for the
parameter `jobID interface{}`: `JobID` a value of type `models.JobID`, `int32`
a value of Go type `int32`, and `other` a value of any other dynamic type, of
which only the name printed by `%T` matters. -/
inductive JobIDArg where
  | JobID (id : Nat)
  | int32 (v : Int)
  | other (typeName : String)
  deriving DecidableEq, Repr

/-- Go error values that occur in the two operations: the sentinel
`sql.ErrNoRows`, any other error value reported by the store, the result of
`errors.Wrap(cause, msg)` and the result of `errors.Errorf(msg)`. -/
inductive GoError where
  | ErrNoRows
  | store (msg : String)
  | wrap (cause : GoError) (msg : String)
  | errorf (msg : String)
  deriving DecidableEq, Repr

/-- How a call ends: a normal return with the store state it leaves and the
returned values, or a panic with the store state at that moment. -/
inductive Outcome (σ α : Type) where
  | ret (s : σ) (a : α)
  | panic (s : σ) (msg : String)
  deriving DecidableEq, Repr

/-- The returned values of a call, if it returned. -/
def Outcome.value {σ α : Type} : Outcome σ α → Option α
  | .ret _ a => some a
  | .panic _ _ => none

/-- The store state a call leaves behind. -/
def Outcome.state {σ α : Type} : Outcome σ α → σ
  | .ret s _ => s
  | .panic s _ => s

/-- Whether the call panicked. -/
def Outcome.panicked {σ α : Type} : Outcome σ α → Bool
  | .ret _ _ => false
  | .panic _ _ => true

/-! ## Statements and the database handle -/

/-- The statement of `WasBroadcastConsumed` (orm.go 42-55):
`SELECT consumed FROM log_broadcasts WHERE block_hash = ? AND log_index = ?
AND <column> = ?` with its three bound arguments. -/
structure SelectConsumed where
  column : String
  blockHash : Hash
  logIndex : Nat
  jobID : JobIDArg
  deriving DecidableEq, Repr

/-- The statement of `MarkBroadcastConsumed` (orm.go 74-76):
`INSERT INTO log_broadcasts (block_hash, log_index, <column>, created_at,
consumed) VALUES (?, ?, ?, NOW(), true)` with its three bound arguments. -/
structure InsertBroadcast where
  column : String
  blockHash : Hash
  logIndex : Nat
  jobID : JobIDArg
  deriving DecidableEq, Repr

/-- What `Row().Scan(&consumed)` did: the value it stored through the pointer,
if it stored one, and the error it returned. -/
structure ScanResult where
  dest : Option Bool
  err : Option GoError
  deriving DecidableEq, Repr

/-- The fields of the `*gorm.DB` returned by `Exec` that the code reads. -/
structure ExecResult where
  Error : Option GoError
  RowsAffected : Int
  deriving DecidableEq, Repr

/-- The database handle `o.db` over a store state `σ`. -/
structure Driver (σ : Type) where
  RawRowScan : σ → SelectConsumed → σ × ScanResult
  Exec : σ → InsertBroadcast → σ × ExecResult

/-! ## The two operations -/

/-- The type switch both operations start with (orm.go 32-40 and 64-72): the
column name for the two known types, the panic message for any other. -/
def jobIDName : JobIDArg → Except String String
  | .JobID _ => .ok "job_id"
  | .int32 _ => .ok "job_id_v2"
  | .other t => .error ("unrecognised type for jobID: " ++ t)

/-- The method `(*orm).WasBroadcastConsumed` (orm.go 31-61).  The named result
`consumed` starts at false and is whatever `Scan` stored into it. -/
def WasBroadcastConsumed {σ : Type} (db : Driver σ) (s : σ) (blockHash : Hash)
    (logIndex : Nat) (jobID : JobIDArg) : Outcome σ (Bool × Option GoError) :=
  match jobIDName jobID with
  | .error msg => .panic s msg
  | .ok name =>
    let r := db.RawRowScan s ⟨name, blockHash, logIndex, jobID⟩
    let consumed := r.2.dest.getD false
    if r.2.err = some GoError.ErrNoRows then .ret r.1 (false, none)
    else .ret r.1 (consumed, r.2.err)

/-- The method `(*orm).MarkBroadcastConsumed` (orm.go 63-83). -/
def MarkBroadcastConsumed {σ : Type} (db : Driver σ) (s : σ) (blockHash : Hash)
    (logIndex : Nat) (jobID : JobIDArg) : Outcome σ (Option GoError) :=
  match jobIDName jobID with
  | .error msg => .panic s msg
  | .ok name =>
    let query := db.Exec s ⟨name, blockHash, logIndex, jobID⟩
    match query.2.Error with
    | some e => .ret query.1 (some (.wrap e "while marking log broadcast as consumed"))
    | none =>
      if query.2.RowsAffected = 0 then
        .ret query.1 (some (.errorf "cannot mark log broadcast as consumed: does not exist"))
      else .ret query.1 none

/-! ## The table `log_broadcasts` -/

/-- Modelled from the spec: the schema of `log_broadcasts`, which is declared
outside orm.go.  One row of the table (spec section 6); the two id columns are
nullable and at most one of them is populated. -/
structure LogBroadcast where
  block_hash : Hash
  log_index : Nat
  job_id : Option Nat
  job_id_v2 : Option Int
  created_at : Nat
  consumed : Bool
  deriving DecidableEq, Repr

/-- Modelled from the spec: the uniqueness constraint of `log_broadcasts`,
which is declared outside orm.go.  Both policies keep a key from getting a
second row; they differ in how the INSERT whose key is already present is
reported.  `reject` is an SQL unique constraint, which fails a plain INSERT
with an error; `skip` is a store that drops the row silently and reports zero
rows affected, as spec section 4.1 describes. -/
inductive DuplicatePolicy where
  | reject
  | skip
  deriving DecidableEq, Repr

/-- The state of the store behind `o.db`: the rows of the table in insertion
order, the fault the connection currently reports (none when it is healthy),
the policy for duplicate keys, the reading of `NOW()`, and when a lookup meets
the fault: before any row is read, or only when the row set is closed, after
`Scan` has stored the flag of the row it read. -/
structure Store where
  rows : List LogBroadcast
  fault : Option GoError
  onDuplicate : DuplicatePolicy
  now : Nat
  faultAfterScan : Bool
  deriving DecidableEq, Repr

/-- An id column together with a value of the column's type. -/
inductive IdCol where
  | job_id (x : Nat)
  | job_id_v2 (v : Int)
  deriving DecidableEq, Repr

/-- Resolution of `<column> = ?` against the schema: `job_id` takes a legacy
id, `job_id_v2` a 32-bit integer; anything else is not a valid statement. -/
def resolveColumn (column : String) (jobID : JobIDArg) : Option IdCol :=
  match jobID with
  | .JobID x => if column = "job_id" then some (.job_id x) else none
  | .int32 v => if column = "job_id_v2" then some (.job_id_v2 v) else none
  | .other _ => none

/-- The condition `block_hash = ? AND log_index = ? AND <column> = ?`.  A NULL
column equals nothing. -/
def keyMatches (blockHash : Hash) (logIndex : Nat) (c : IdCol) (r : LogBroadcast) : Bool :=
  r.block_hash == blockHash && r.log_index == logIndex &&
    (match c with
     | .job_id x => r.job_id == some x
     | .job_id_v2 v => r.job_id_v2 == some v)

/-- The row an INSERT writes: the named id column populated, the other NULL,
`created_at = NOW()`, `consumed = true`. -/
def insertedRow (blockHash : Hash) (logIndex : Nat) (c : IdCol) (now : Nat) : LogBroadcast :=
  match c with
  | .job_id x => ⟨blockHash, logIndex, some x, none, now, true⟩
  | .job_id_v2 v => ⟨blockHash, logIndex, none, some v, now, true⟩

/-- The store answering the SELECT, following `Row().Scan`: a fault met
before any row is read is returned with nothing stored; otherwise
`sql.ErrNoRows` is returned when no row matches, and the first matching row
is scanned, its flag stored, and the error of closing the row set returned:
nil on a healthy store, the fault on a store that meets it after the scan.
The rows are not touched. -/
def Store.select (st : Store) (q : SelectConsumed) : Store × ScanResult :=
  match st.fault, st.faultAfterScan with
  | some e, false => (st, ⟨none, some e⟩)
  | closeErr, _ =>
    match resolveColumn q.column q.jobID with
    | none => (st, ⟨none, some (.store "invalid statement")⟩)
    | some c =>
      match st.rows.find? (keyMatches q.blockHash q.logIndex c) with
      | none => (st, ⟨none, some .ErrNoRows⟩)
      | some r => (st, ⟨some r.consumed, closeErr⟩)

/-- The store answering the INSERT: a fault or a duplicate key leaves the
rows as they are; otherwise one row is appended and one row is affected. -/
def Store.insert (st : Store) (i : InsertBroadcast) : Store × ExecResult :=
  match st.fault with
  | some e => (st, ⟨some e, 0⟩)
  | none =>
    match resolveColumn i.column i.jobID with
    | none => (st, ⟨some (.store "invalid statement"), 0⟩)
    | some c =>
      if st.rows.any (keyMatches i.blockHash i.logIndex c) then
        match st.onDuplicate with
        | .reject =>
          (st, ⟨some (.store "duplicate key value violates unique constraint"), 0⟩)
        | .skip => (st, ⟨none, 0⟩)
      else
        ({ st with rows := st.rows ++ [insertedRow i.blockHash i.logIndex c st.now] }, ⟨none, 1⟩)

/-- The relational store as a database handle. -/
def sqlStore : Driver Store := ⟨Store.select, Store.insert⟩

/-- The records of the store that match a key of a known variant. -/
def recordsFor (st : Store) (blockHash : Hash) (logIndex : Nat) (jobID : JobIDArg) :
    List LogBroadcast :=
  match jobIDName jobID with
  | .error _ => []
  | .ok name =>
    match resolveColumn name jobID with
    | none => []
    | some c => st.rows.filter (keyMatches blockHash logIndex c)

/-- A consumer id of one of the two known variants. -/
def JobIDArg.known : JobIDArg → Bool
  | .JobID _ => true
  | .int32 _ => true
  | .other _ => false

/-- The typed id column of a consumer id of a known variant. -/
def knownCol : JobIDArg → Option IdCol
  | .JobID x => some (.job_id x)
  | .int32 v => some (.job_id_v2 v)
  | .other _ => none

/-- Modelled from the spec: invariant I1 of the schema, which is declared
outside orm.go: no two rows agree on block hash, log index and a populated id
column. -/
def UniqueKeys (rows : List LogBroadcast) : Prop :=
  rows.Pairwise (fun a b =>
    ¬ (a.block_hash = b.block_hash ∧ a.log_index = b.log_index ∧
        ((a.job_id.isSome = true ∧ a.job_id = b.job_id) ∨
         (a.job_id_v2.isSome = true ∧ a.job_id_v2 = b.job_id_v2))))

instance (rows : List LogBroadcast) : Decidable (UniqueKeys rows) := by
  unfold UniqueKeys
  infer_instance

/-- A call of one of the two operations. -/
inductive Call where
  | was (blockHash : Hash) (logIndex : Nat) (jobID : JobIDArg)
  | mark (blockHash : Hash) (logIndex : Nat) (jobID : JobIDArg)
  deriving DecidableEq, Repr

/-- The store state one call leaves on the relational store. -/
def Call.run (st : Store) : Call → Store
  | .was bh li id => (WasBroadcastConsumed sqlStore st bh li id).state
  | .mark bh li id => (MarkBroadcastConsumed sqlStore st bh li id).state

/-- The store state a sequence of calls leaves. -/
def runCalls (st : Store) (cs : List Call) : Store :=
  cs.foldl Call.run st

/-! ## Sample values -/

/-- The healthy empty store whose uniqueness constraint rejects duplicates. -/
def emptyStore : Store := ⟨[], none, .reject, 0, false⟩

/-- The healthy empty store that drops duplicates silently. -/
def emptySkipStore : Store := ⟨[], none, .skip, 0, false⟩

/-- An empty store whose connection is down. -/
def downStore : Store := ⟨[], some (.store "connection refused"), .reject, 0, false⟩

/-- A store holding one consumed record for block 170, log 3, job 42. -/
def oneRowStore : Store := ⟨[⟨170, 3, none, some 42, 0, true⟩], none, .reject, 5, false⟩

/-- A store holding an unconsumed record of the legacy job 7 and a consumed
record of job 7 for the same log. -/
def unconsumedStore : Store :=
  ⟨[⟨170, 3, some 7, none, 1, false⟩, ⟨170, 3, none, some 7, 2, true⟩], none, .reject, 5, false⟩

/-- The store of `oneRowStore` with a connection that is reset while the row
set of a lookup is closed, after the row was scanned. -/
def resetStore : Store :=
  ⟨[⟨170, 3, none, some 42, 0, true⟩], some (.store "connection reset"), .reject, 5, true⟩

/-- The store of `oneRowStore` under the policy that drops duplicates silently. -/
def oneRowSkipStore : Store := ⟨[⟨170, 3, none, some 42, 0, true⟩], none, .skip, 5, false⟩

/-! ## Lemmas on the relational store -/

theorem knownCol_of_known {id : JobIDArg} (hk : id.known = true) : ∃ c, knownCol id = some c := by
  cases id <;> simp_all [JobIDArg.known, knownCol]

theorem recordsFor_eq (st : Store) (bh : Hash) (li : Nat) {id : JobIDArg} {c : IdCol}
    (hc : knownCol id = some c) :
    recordsFor st bh li id = st.rows.filter (keyMatches bh li c) := by
  cases id <;> simp_all [knownCol, recordsFor, jobIDName, resolveColumn]

/-- The lookup on the relational store, for a key of a known variant. -/
theorem was_sql_eq (st : Store) (bh : Hash) (li : Nat) {id : JobIDArg} {c : IdCol}
    (hc : knownCol id = some c) :
    WasBroadcastConsumed sqlStore st bh li id =
      match st.fault with
      | some e =>
        if st.faultAfterScan = true then
          match st.rows.find? (keyMatches bh li c) with
          | none => .ret st (false, none)
          | some r =>
            if e = GoError.ErrNoRows then .ret st (false, none) else .ret st (r.consumed, some e)
        else if e = GoError.ErrNoRows then .ret st (false, none) else .ret st (false, some e)
      | none =>
        match st.rows.find? (keyMatches bh li c) with
        | none => .ret st (false, none)
        | some r => .ret st (r.consumed, none) := by
  obtain ⟨rows, fault, pol, now, late⟩ := st
  cases id with
  | other t => simp [knownCol] at hc
  | JobID x =>
    simp only [knownCol, Option.some.injEq] at hc
    subst hc
    cases fault with
    | some e =>
      cases late
      · by_cases he : e = GoError.ErrNoRows <;>
          simp [WasBroadcastConsumed, jobIDName, sqlStore, Store.select, he]
      · cases hfind : rows.find? (keyMatches bh li (.job_id x)) <;>
          by_cases he : e = GoError.ErrNoRows <;>
          simp [WasBroadcastConsumed, jobIDName, sqlStore, Store.select, resolveColumn, hfind, he]
    | none =>
      cases hfind : rows.find? (keyMatches bh li (.job_id x)) <;>
        simp [WasBroadcastConsumed, jobIDName, sqlStore, Store.select, resolveColumn, hfind]
  | int32 v =>
    simp only [knownCol, Option.some.injEq] at hc
    subst hc
    cases fault with
    | some e =>
      cases late
      · by_cases he : e = GoError.ErrNoRows <;>
          simp [WasBroadcastConsumed, jobIDName, sqlStore, Store.select, he]
      · cases hfind : rows.find? (keyMatches bh li (.job_id_v2 v)) <;>
          by_cases he : e = GoError.ErrNoRows <;>
          simp [WasBroadcastConsumed, jobIDName, sqlStore, Store.select, resolveColumn, hfind, he]
    | none =>
      cases hfind : rows.find? (keyMatches bh li (.job_id_v2 v)) <;>
        simp [WasBroadcastConsumed, jobIDName, sqlStore, Store.select, resolveColumn, hfind]

/-- The mark on the relational store, for a key of a known variant. -/
theorem mark_sql_eq (st : Store) (bh : Hash) (li : Nat) {id : JobIDArg} {c : IdCol}
    (hc : knownCol id = some c) :
    MarkBroadcastConsumed sqlStore st bh li id =
      match st.fault with
      | some e => .ret st (some (.wrap e "while marking log broadcast as consumed"))
      | none =>
        if st.rows.any (keyMatches bh li c) then
          match st.onDuplicate with
          | .reject => .ret st (some (.wrap
              (.store "duplicate key value violates unique constraint")
              "while marking log broadcast as consumed"))
          | .skip => .ret st
              (some (.errorf "cannot mark log broadcast as consumed: does not exist"))
        else
          .ret { st with rows := st.rows ++ [insertedRow bh li c st.now] } none := by
  obtain ⟨rows, fault, pol, now, late⟩ := st
  cases id with
  | other t => simp [knownCol] at hc
  | JobID x =>
    simp only [knownCol, Option.some.injEq] at hc
    subst hc
    cases fault with
    | some e => simp [MarkBroadcastConsumed, jobIDName, sqlStore, Store.insert]
    | none =>
      by_cases hany : rows.any (keyMatches bh li (.job_id x)) = true
      · cases pol <;>
          simp [MarkBroadcastConsumed, jobIDName, sqlStore, Store.insert, resolveColumn, hany]
      · simp [MarkBroadcastConsumed, jobIDName, sqlStore, Store.insert, resolveColumn, hany]
  | int32 v =>
    simp only [knownCol, Option.some.injEq] at hc
    subst hc
    cases fault with
    | some e => simp [MarkBroadcastConsumed, jobIDName, sqlStore, Store.insert]
    | none =>
      by_cases hany : rows.any (keyMatches bh li (.job_id_v2 v)) = true
      · cases pol <;>
          simp [MarkBroadcastConsumed, jobIDName, sqlStore, Store.insert, resolveColumn, hany]
      · simp [MarkBroadcastConsumed, jobIDName, sqlStore, Store.insert, resolveColumn, hany]

theorem insertedRow_matches (bh : Hash) (li : Nat) (c : IdCol) (now : Nat) :
    keyMatches bh li c (insertedRow bh li c now) = true := by
  cases c <;> simp [keyMatches, insertedRow]

theorem insertedRow_consumed (bh : Hash) (li : Nat) (c : IdCol) (now : Nat) :
    (insertedRow bh li c now).consumed = true := by
  cases c <;> simp [insertedRow]

/-- Two rows matching one key agree on the key columns in the sense of I1. -/
theorem keyMatches_same {bh : Hash} {li : Nat} {c : IdCol} {a b : LogBroadcast}
    (ha : keyMatches bh li c a = true) (hb : keyMatches bh li c b = true) :
    a.block_hash = b.block_hash ∧ a.log_index = b.log_index ∧
      ((a.job_id.isSome = true ∧ a.job_id = b.job_id) ∨
       (a.job_id_v2.isSome = true ∧ a.job_id_v2 = b.job_id_v2)) := by
  cases c <;> simp_all [keyMatches]

/-- Under I1 a key has at most one record. -/
theorem unique_record {rows : List LogBroadcast} (hu : UniqueKeys rows) {bh : Hash} {li : Nat}
    {c : IdCol} {a b : LogBroadcast} (ha : a ∈ rows) (hb : b ∈ rows)
    (hma : keyMatches bh li c a = true) (hmb : keyMatches bh li c b = true) : a = b := by
  by_contra hne
  have hsymm : Symmetric (fun a b : LogBroadcast =>
      ¬ (a.block_hash = b.block_hash ∧ a.log_index = b.log_index ∧
        ((a.job_id.isSome = true ∧ a.job_id = b.job_id) ∨
         (a.job_id_v2.isSome = true ∧ a.job_id_v2 = b.job_id_v2)))) := by
    intro x y hxy hyx
    apply hxy
    obtain ⟨h1, h2, h3⟩ := hyx
    refine ⟨h1.symm, h2.symm, ?_⟩
    rcases h3 with ⟨h4, h5⟩ | ⟨h4, h5⟩
    · exact Or.inl ⟨h5 ▸ h4, h5.symm⟩
    · exact Or.inr ⟨h5 ▸ h4, h5.symm⟩
  exact List.Pairwise.forall hsymm hu ha hb hne (keyMatches_same hma hmb)

/-- What a mark does to the relational store: nothing, or it appends the row
of the key to a healthy store that had no row matching the key. -/
theorem mark_state_cases (st : Store) (bh : Hash) (li : Nat) (id : JobIDArg) :
    (MarkBroadcastConsumed sqlStore st bh li id).state = st ∨
    ∃ c, knownCol id = some c ∧ st.fault = none ∧
      st.rows.any (keyMatches bh li c) = false ∧
      (MarkBroadcastConsumed sqlStore st bh li id).state
        = { st with rows := st.rows ++ [insertedRow bh li c st.now] } := by
  cases hc : knownCol id with
  | none =>
    left
    cases id <;> simp_all [knownCol, MarkBroadcastConsumed, jobIDName, Outcome.state]
  | some c =>
    rw [mark_sql_eq st bh li hc]
    cases hf : st.fault with
    | some e => left; simp [Outcome.state]
    | none =>
      by_cases hany : st.rows.any (keyMatches bh li c) = true
      · left
        cases hp : st.onDuplicate <;> simp [hany, Outcome.state]
      · right
        refine ⟨c, rfl, rfl, by simpa using hany, ?_⟩
        simp [hany, Outcome.state]

/-- A lookup never changes the relational store. -/
theorem was_state (st : Store) (bh : Hash) (li : Nat) (id : JobIDArg) :
    (WasBroadcastConsumed sqlStore st bh li id).state = st := by
  cases hc : knownCol id with
  | none => cases id <;> simp_all [knownCol, WasBroadcastConsumed, jobIDName, Outcome.state]
  | some c =>
    rw [was_sql_eq st bh li hc]
    repeat' split
    all_goals rfl

/-- Appending a row that does not match the key leaves the lookup's result as
it was. -/
theorem was_value_append (st : Store) (bh : Hash) (li : Nat) (id : JobIDArg) (c : IdCol)
    (hc : knownCol id = some c) (new : LogBroadcast) (hnew : keyMatches bh li c new = false) :
    (WasBroadcastConsumed sqlStore { st with rows := st.rows ++ [new] } bh li id).value
      = (WasBroadcastConsumed sqlStore st bh li id).value := by
  rw [was_sql_eq _ bh li hc, was_sql_eq st bh li hc]
  simp only [List.find?_append]
  cases hfind : st.rows.find? (keyMatches bh li c) <;> simp [List.find?, hnew] <;>
    (repeat' split) <;> rfl

/-- The row written for one id column does not match a key on the other. -/
theorem insertedRow_other_column (bh bh' : Hash) (li li' : Nat) (x : Nat) (v : Int) (now : Nat) :
    keyMatches bh li (.job_id_v2 v) (insertedRow bh' li' (.job_id x) now) = false ∧
    keyMatches bh li (.job_id x) (insertedRow bh' li' (.job_id_v2 v) now) = false := by
  simp [keyMatches, insertedRow]

/-- A lookup that returned `(true, nil)` still does after a row is appended. -/
theorem was_true_append (st : Store) (bh : Hash) (li : Nat) (id : JobIDArg) (new : LogBroadcast)
    (h : (WasBroadcastConsumed sqlStore st bh li id).value = some (true, none)) :
    (WasBroadcastConsumed sqlStore { st with rows := st.rows ++ [new] } bh li id).value
      = some (true, none) := by
  cases hc : knownCol id with
  | none => cases id <;> simp_all [knownCol, WasBroadcastConsumed, jobIDName, Outcome.value]
  | some c =>
    rw [was_sql_eq st bh li hc] at h
    rw [was_sql_eq _ bh li hc]
    cases hf : st.fault with
    | some e =>
      rw [hf] at h
      by_cases hl : st.faultAfterScan = true <;>
        by_cases he : e = GoError.ErrNoRows <;>
        cases hfind : st.rows.find? (keyMatches bh li c) <;>
        simp [hl, he, hfind, Outcome.value] at h
    | none =>
      rw [hf] at h
      simp only [List.find?_append]
      cases hfind : st.rows.find? (keyMatches bh li c) with
      | none => simp [hfind, Outcome.value] at h
      | some r => simpa [hfind, Outcome.value] using h

/-- What one call does to the relational store: nothing, or it appends one row
whose flag is true. -/
theorem call_run_cases (st : Store) (c : Call) :
    Call.run st c = st ∨
    ∃ new, new.consumed = true ∧ Call.run st c = { st with rows := st.rows ++ [new] } := by
  cases c with
  | was bh li id => left; exact was_state st bh li id
  | mark bh li id =>
    rcases mark_state_cases st bh li id with h | ⟨k, -, -, -, h⟩
    · left; exact h
    · right
      exact ⟨insertedRow bh li k st.now, insertedRow_consumed bh li k st.now, h⟩

/-- Invariant I1 is kept by every mark on the relational store. -/
theorem mark_keeps_unique (st : Store) (bh : Hash) (li : Nat) (id : JobIDArg)
    (hu : UniqueKeys st.rows) :
    UniqueKeys (MarkBroadcastConsumed sqlStore st bh li id).state.rows := by
  rcases mark_state_cases st bh li id with h | ⟨c, -, -, hany, h⟩
  · rw [h]; exact hu
  · rw [h]
    simp only [UniqueKeys, List.pairwise_append, List.pairwise_singleton, true_and,
      List.mem_singleton, forall_eq]
    refine ⟨hu, ?_⟩
    intro a ha hsame
    have hno : keyMatches bh li c a = false := by
      simp only [List.any_eq_false] at hany
      simpa using hany a ha
    obtain ⟨h1, h2, h3⟩ := hsame
    cases c with
    | job_id x =>
      simp only [insertedRow] at h1 h2 h3
      simp only [keyMatches, h1, h2, beq_self_eq_true, Bool.true_and, beq_eq_false_iff_ne] at hno
      rcases h3 with ⟨-, h5⟩ | ⟨h4, h5⟩
      · exact hno h5
      · rw [h5] at h4; cases h4
    | job_id_v2 v =>
      simp only [insertedRow] at h1 h2 h3
      simp only [keyMatches, h1, h2, beq_self_eq_true, Bool.true_and, beq_eq_false_iff_ne] at hno
      rcases h3 with ⟨h4, h5⟩ | ⟨-, h5⟩
      · rw [h5] at h4; cases h4
      · exact hno h5

/-! ## Claims -/

/-- C1 (mark then check): on the relational store, whenever
`MarkBroadcastConsumed(bh, li, id)` returns no error, leaving the store `st'`,
`WasBroadcastConsumed(bh, li, id)` on `st'` returns `(true, nil)`.  A returning
call has a consumer id of a known variant, so none is assumed. -/
theorem mark_then_check (st st' : Store) (bh : Hash) (li : Nat) (id : JobIDArg)
    (hmark : MarkBroadcastConsumed sqlStore st bh li id = .ret st' none) :
    WasBroadcastConsumed sqlStore st' bh li id = .ret st' (true, none) := by
  cases hc : knownCol id with
  | none => cases id <;> simp_all [knownCol, MarkBroadcastConsumed, jobIDName]
  | some c =>
    rw [mark_sql_eq st bh li hc] at hmark
    rw [was_sql_eq st' bh li hc]
    cases hf : st.fault with
    | some e => simp [hf] at hmark
    | none =>
      simp only [hf] at hmark
      by_cases hany : st.rows.any (keyMatches bh li c) = true
      · cases hp : st.onDuplicate <;> simp [hany, hp] at hmark
      · rw [if_neg hany] at hmark
        simp only [Outcome.ret.injEq, and_true] at hmark
        subst hmark
        have hnone : st.rows.find? (keyMatches bh li c) = none := by
          simpa using hany
        simp [hf, List.find?_append, hnone, insertedRow_matches, insertedRow_consumed]

/-- Witness of C1: marking job 42 for log 3 of block 170 on the empty store and
checking afterwards. -/
theorem mark_then_check_witness :
    WasBroadcastConsumed sqlStore ⟨[⟨170, 3, none, some 42, 0, true⟩], none, .reject, 0, false⟩
      170 3 (.int32 42)
      = .ret ⟨[⟨170, 3, none, some 42, 0, true⟩], none, .reject, 0, false⟩ (true, none) :=
  mark_then_check emptyStore _ 170 3 (.int32 42) (by decide)

/-- C2 as stated fails: a store that holds no matching record but whose
connection is down makes `WasBroadcastConsumed` return the fault, not
`(false, nil)`. -/
theorem fresh_key_fault_counterexample :
    JobIDArg.known (.int32 42) = true ∧ recordsFor downStore 170 3 (.int32 42) = [] ∧
      WasBroadcastConsumed sqlStore downStore 170 3 (.int32 42)
        = .ret downStore (false, some (.store "connection refused")) := by
  decide

/-- C2 amended (fresh key): on a store that does not fault, for every key of a
known variant with no matching record, `WasBroadcastConsumed` returns
`(false, nil)` and leaves the store as it is; and on every database handle a
lookup answered with `sql.ErrNoRows` is returned as `(false, nil)`. -/
theorem fresh_key (st : Store) (bh : Hash) (li : Nat) (id : JobIDArg)
    (hk : id.known = true) (hf : st.fault = none) (hfresh : recordsFor st bh li id = []) :
    WasBroadcastConsumed sqlStore st bh li id = .ret st (false, none) ∧
    (∀ (σ : Type) (db : Driver σ) (s : σ) (name : String), jobIDName id = .ok name →
      (db.RawRowScan s ⟨name, bh, li, id⟩).2.err = some GoError.ErrNoRows →
      WasBroadcastConsumed db s bh li id
        = .ret (db.RawRowScan s ⟨name, bh, li, id⟩).1 (false, none)) := by
  refine ⟨?_, fun σ db s name hname herr => by simp [WasBroadcastConsumed, hname, herr]⟩
  obtain ⟨c, hc⟩ := knownCol_of_known hk
  rw [recordsFor_eq st bh li hc] at hfresh
  have hnone : st.rows.find? (keyMatches bh li c) = none := by
    rw [List.find?_eq_none]
    intro x hx hm
    have : x ∈ st.rows.filter (keyMatches bh li c) := List.mem_filter.mpr ⟨hx, hm⟩
    rw [hfresh] at this
    exact absurd this (List.not_mem_nil x)
  rw [was_sql_eq st bh li hc, hf]
  simp [hnone]

/-- Witness of C2 amended: a store holding a record of job 42 has none for the
legacy job 42. -/
theorem fresh_key_witness :
    WasBroadcastConsumed sqlStore oneRowStore 170 3 (.JobID 42)
      = .ret oneRowStore (false, none) :=
  (fresh_key oneRowStore 170 3 (.JobID 42) (by decide) (by decide) (by decide)).1

/-- C3 (verbatim read): on a store that does not fault and satisfies I1, if `r`
is a record matching the key, `WasBroadcastConsumed` returns `(r.consumed, nil)`. -/
theorem verbatim_read (st : Store) (bh : Hash) (li : Nat) (id : JobIDArg) (r : LogBroadcast)
    (hk : id.known = true) (hf : st.fault = none) (hu : UniqueKeys st.rows)
    (hr : r ∈ recordsFor st bh li id) :
    WasBroadcastConsumed sqlStore st bh li id = .ret st (r.consumed, none) := by
  obtain ⟨c, hc⟩ := knownCol_of_known hk
  rw [recordsFor_eq st bh li hc] at hr
  obtain ⟨hmem, hm⟩ := List.mem_filter.mp hr
  rw [was_sql_eq st bh li hc, hf]
  cases hfind : st.rows.find? (keyMatches bh li c) with
  | none =>
    rw [List.find?_eq_none] at hfind
    exact absurd hm (hfind r hmem)
  | some r' =>
    have heq : r' = r :=
      unique_record hu (List.mem_of_find?_eq_some hfind) hmem (List.find?_some hfind) hm
    simp [heq]

/-- Witness of C3: a record whose flag is false is read as false. -/
theorem verbatim_read_witness :
    WasBroadcastConsumed sqlStore unconsumedStore 170 3 (.JobID 7)
      = .ret unconsumedStore (false, none) :=
  verbatim_read unconsumedStore 170 3 (.JobID 7) ⟨170, 3, some 7, none, 1, false⟩
    (by decide) (by decide) (by decide) (by decide)

/-- C4 as stated fails: on the store whose uniqueness constraint rejects a
duplicate INSERT, the first mark returns nil and the second returns the
wrapped storage error, not the zero-rows error. -/
theorem duplicate_mark_counterexample :
    MarkBroadcastConsumed sqlStore emptyStore 170 3 (.int32 42)
      = .ret ⟨[⟨170, 3, none, some 42, 0, true⟩], none, .reject, 0, false⟩ none ∧
    MarkBroadcastConsumed sqlStore ⟨[⟨170, 3, none, some 42, 0, true⟩], none, .reject, 0, false⟩
        170 3 (.int32 42)
      = .ret ⟨[⟨170, 3, none, some 42, 0, true⟩], none, .reject, 0, false⟩
          (some (.wrap (.store "duplicate key value violates unique constraint")
            "while marking log broadcast as consumed")) := by
  decide

/-- C4 amended (duplicate mark): on a store that does not fault and holds no
record for a key of a known variant, the first mark returns nil and leaves a
store `st1`; the second mark with the same key leaves `st1` unchanged and
returns an error: the wrapped unique-violation error when the store rejects
the duplicate, the zero-rows error when the store drops it silently; `st1`
holds exactly one record for the key. -/
theorem duplicate_mark (st : Store) (bh : Hash) (li : Nat) (id : JobIDArg)
    (hk : id.known = true) (hf : st.fault = none) (hfresh : recordsFor st bh li id = []) :
    ∃ st1, MarkBroadcastConsumed sqlStore st bh li id = .ret st1 none ∧
      MarkBroadcastConsumed sqlStore st1 bh li id = .ret st1 (some
        (match st.onDuplicate with
         | .reject => .wrap (.store "duplicate key value violates unique constraint")
             "while marking log broadcast as consumed"
         | .skip => .errorf "cannot mark log broadcast as consumed: does not exist")) ∧
      (recordsFor st1 bh li id).length = 1 := by
  obtain ⟨c, hc⟩ := knownCol_of_known hk
  rw [recordsFor_eq st bh li hc] at hfresh
  have hall : ∀ x ∈ st.rows, keyMatches bh li c x = false := by
    intro x hx
    by_contra hm
    have : x ∈ st.rows.filter (keyMatches bh li c) :=
      List.mem_filter.mpr ⟨hx, by simpa using hm⟩
    rw [hfresh] at this
    exact absurd this (List.not_mem_nil x)
  have hany : ¬ (st.rows.any (keyMatches bh li c) = true) := by
    simp only [List.any_eq_true, not_exists, not_and]
    intro x hx
    simp [hall x hx]
  refine ⟨{ st with rows := st.rows ++ [insertedRow bh li c st.now] }, ?_, ?_, ?_⟩
  · rw [mark_sql_eq st bh li hc, hf]
    simp [hany]
  · rw [mark_sql_eq _ bh li hc]
    simp only [hf]
    have : (st.rows ++ [insertedRow bh li c st.now]).any (keyMatches bh li c) = true := by
      simp [insertedRow_matches]
    rw [if_pos this]
    cases st.onDuplicate <;> rfl
  · rw [recordsFor_eq _ bh li hc]
    simp [List.filter_append, hfresh, insertedRow_matches, List.filter]

/-- Witness of C4 amended: the store that drops duplicates silently answers the
second mark with the zero-rows error. -/
theorem duplicate_mark_witness :
    ∃ st1, MarkBroadcastConsumed sqlStore emptySkipStore 170 3 (.int32 42) = .ret st1 none ∧
      MarkBroadcastConsumed sqlStore st1 170 3 (.int32 42) = .ret st1
        (some (.errorf "cannot mark log broadcast as consumed: does not exist")) ∧
      (recordsFor st1 170 3 (.int32 42)).length = 1 :=
  duplicate_mark emptySkipStore 170 3 (.int32 42) (by decide) (by decide) (by decide)

/-- C5 (variant isolation): on the relational store a mark with the legacy id
`x` leaves the result of the lookup with the int32 id `v` as it was, and a mark
with the int32 id leaves the result of the lookup with the legacy id as it was,
for all `x` and `v`, equal raw values included; and on every database handle
both operations address column `job_id` for a legacy id and column `job_id_v2`
for an int32 id. -/
theorem variant_isolation (st : Store) (bh : Hash) (li : Nat) (x : Nat) (v : Int) :
    (WasBroadcastConsumed sqlStore
        (MarkBroadcastConsumed sqlStore st bh li (.JobID x)).state bh li (.int32 v)).value
      = (WasBroadcastConsumed sqlStore st bh li (.int32 v)).value ∧
    (WasBroadcastConsumed sqlStore
        (MarkBroadcastConsumed sqlStore st bh li (.int32 v)).state bh li (.JobID x)).value
      = (WasBroadcastConsumed sqlStore st bh li (.JobID x)).value ∧
    (∀ (σ : Type) (db : Driver σ) (s : σ),
      (WasBroadcastConsumed db s bh li (.JobID x)).state
        = (db.RawRowScan s ⟨"job_id", bh, li, .JobID x⟩).1 ∧
      (WasBroadcastConsumed db s bh li (.int32 v)).state
        = (db.RawRowScan s ⟨"job_id_v2", bh, li, .int32 v⟩).1 ∧
      (MarkBroadcastConsumed db s bh li (.JobID x)).state
        = (db.Exec s ⟨"job_id", bh, li, .JobID x⟩).1 ∧
      (MarkBroadcastConsumed db s bh li (.int32 v)).state
        = (db.Exec s ⟨"job_id_v2", bh, li, .int32 v⟩).1) := by
  refine ⟨?_, ?_, ?_⟩
  · rcases mark_state_cases st bh li (.JobID x) with h | ⟨c, hc, -, -, h⟩
    · rw [h]
    · rw [h]
      simp only [knownCol, Option.some.injEq] at hc
      subst hc
      exact was_value_append st bh li (.int32 v) (.job_id_v2 v) rfl _
        (insertedRow_other_column bh bh li li x v st.now).1
  · rcases mark_state_cases st bh li (.int32 v) with h | ⟨c, hc, -, -, h⟩
    · rw [h]
    · rw [h]
      simp only [knownCol, Option.some.injEq] at hc
      subst hc
      exact was_value_append st bh li (.JobID x) (.job_id x) rfl _
        (insertedRow_other_column bh bh li li x v st.now).2
  · intro σ db s
    refine ⟨?_, ?_, ?_, ?_⟩
    · simp only [WasBroadcastConsumed, jobIDName]
      split <;> rfl
    · simp only [WasBroadcastConsumed, jobIDName]
      split <;> rfl
    · simp only [MarkBroadcastConsumed, jobIDName]
      split
      · rfl
      · split <;> rfl
    · simp only [MarkBroadcastConsumed, jobIDName]
      split
      · rfl
      · split <;> rfl

/-- C6 (unrecognised consumer type): on every database handle and store state,
both operations panic for a jobID of any type other than the two known ones,
with the store state untouched, so no statement was issued; for a legacy id
and for an int32 id neither operation panics. -/
theorem unrecognised_type_panics {σ : Type} (db : Driver σ) (s : σ) (bh : Hash) (li : Nat) :
    (∀ t : String,
      WasBroadcastConsumed db s bh li (.other t)
        = .panic s ("unrecognised type for jobID: " ++ t) ∧
      MarkBroadcastConsumed db s bh li (.other t)
        = .panic s ("unrecognised type for jobID: " ++ t)) ∧
    (∀ x : Nat,
      (WasBroadcastConsumed db s bh li (.JobID x)).panicked = false ∧
      (MarkBroadcastConsumed db s bh li (.JobID x)).panicked = false) ∧
    (∀ v : Int,
      (WasBroadcastConsumed db s bh li (.int32 v)).panicked = false ∧
      (MarkBroadcastConsumed db s bh li (.int32 v)).panicked = false) := by
  refine ⟨fun t => ⟨rfl, rfl⟩, fun x => ⟨?_, ?_⟩, fun v => ⟨?_, ?_⟩⟩
  · simp only [WasBroadcastConsumed, jobIDName]
    split <;> rfl
  · simp only [MarkBroadcastConsumed, jobIDName]
    split
    · rfl
    · split <;> rfl
  · simp only [WasBroadcastConsumed, jobIDName]
    split <;> rfl
  · simp only [MarkBroadcastConsumed, jobIDName]
    split
    · rfl
    · split <;> rfl

/-- C7 as stated fails: on a store whose connection is reset while the row
set is closed, `Scan` has stored the flag of the record it read and then
returns the error, and `WasBroadcastConsumed` returns `(true, err)`. -/
theorem lookup_fault_counterexample :
    JobIDArg.known (.int32 42) = true ∧
    resetStore.fault = some (.store "connection reset") ∧
    WasBroadcastConsumed sqlStore resetStore 170 3 (.int32 42)
      = .ret resetStore (true, some (.store "connection reset")) := by
  decide

/-- C7 amended (lookup storage fault): for every key of a known variant, on
every database handle a lookup whose `Scan` returns an error `e` other than
`sql.ErrNoRows` makes `WasBroadcastConsumed` return `(c, e)`, where `c` is the
value `Scan` stored into `consumed`, false if it stored none; on the
relational store a fault met before a row is read gives `(false, e)`, a fault
met after the scan of the matching record `r` gives `(r.consumed, e)`, and a
non-nil error on a store that meets its faults before a row is read comes
with false. -/
theorem lookup_fault (st : Store) (bh : Hash) (li : Nat) (id : JobIDArg)
    (hk : id.known = true) :
    (∀ (σ : Type) (db : Driver σ) (s : σ) (name : String) (e : GoError),
      jobIDName id = .ok name →
      (db.RawRowScan s ⟨name, bh, li, id⟩).2.err = some e → e ≠ GoError.ErrNoRows →
      WasBroadcastConsumed db s bh li id
        = .ret (db.RawRowScan s ⟨name, bh, li, id⟩).1
            ((db.RawRowScan s ⟨name, bh, li, id⟩).2.dest.getD false, some e)) ∧
    (∀ e, st.fault = some e → e ≠ GoError.ErrNoRows → st.faultAfterScan = false →
      WasBroadcastConsumed sqlStore st bh li id = .ret st (false, some e)) ∧
    (∀ e r, st.fault = some e → e ≠ GoError.ErrNoRows → st.faultAfterScan = true →
      UniqueKeys st.rows → r ∈ recordsFor st bh li id →
      WasBroadcastConsumed sqlStore st bh li id = .ret st (r.consumed, some e)) ∧
    (∀ st' b e, WasBroadcastConsumed sqlStore st bh li id = .ret st' (b, some e) →
      st.faultAfterScan = false → b = false) := by
  obtain ⟨c, hc⟩ := knownCol_of_known hk
  refine ⟨?_, ?_, ?_, ?_⟩
  · intro σ db s name e hname herr hne
    simp [WasBroadcastConsumed, hname, herr, hne]
  · intro e hf hne hl
    rw [was_sql_eq st bh li hc]
    simp [hf, hne, hl]
  · intro e r hf hne hl hu hr
    rw [recordsFor_eq st bh li hc] at hr
    obtain ⟨hmem, hm⟩ := List.mem_filter.mp hr
    rw [was_sql_eq st bh li hc, hf]
    cases hfind : st.rows.find? (keyMatches bh li c) with
    | none =>
      rw [List.find?_eq_none] at hfind
      exact absurd hm (hfind r hmem)
    | some r' =>
      have heq : r' = r :=
        unique_record hu (List.mem_of_find?_eq_some hfind) hmem (List.find?_some hfind) hm
      simp [heq, hl, hne]
  · intro st' b e h hl
    rw [was_sql_eq st bh li hc] at h
    cases hf : st.fault with
    | some e' =>
      rw [hf] at h
      by_cases he : e' = GoError.ErrNoRows
      · simp [he, hl] at h
      · simp only [hl, Bool.false_eq_true, if_false, if_neg he, Outcome.ret.injEq,
          Prod.mk.injEq] at h
        exact h.2.1.symm
    | none =>
      rw [hf] at h
      cases hfind : st.rows.find? (keyMatches bh li c) <;> simp [hfind] at h

/-- Witness of C7 amended: the store whose connection is down before a row is
read, and the store whose connection is reset after the scan. -/
theorem lookup_fault_witness :
    WasBroadcastConsumed sqlStore downStore 170 3 (.int32 42)
        = .ret downStore (false, some (.store "connection refused")) ∧
    WasBroadcastConsumed sqlStore resetStore 170 3 (.int32 42)
        = .ret resetStore (true, some (.store "connection reset")) :=
  ⟨(lookup_fault downStore 170 3 (.int32 42) (by decide)).2.1 (.store "connection refused")
      (by decide) (by decide) (by decide),
   (lookup_fault resetStore 170 3 (.int32 42) (by decide)).2.2.1 (.store "connection reset")
      ⟨170, 3, none, some 42, 0, true⟩ (by decide) (by decide) (by decide) (by decide)
      (by decide)⟩

/-- C8 (mark result mapping): on every database handle, for a key of a known
variant with column `name`, with `query` the store's answer to the INSERT:
an error `e` in `query.Error` is returned wrapped with "while marking log
broadcast as consumed", whatever `RowsAffected` is; no error and zero rows
affected gives the `errors.Errorf` error; nil is returned exactly when there
is no error and `RowsAffected` is not zero; the wrapped error and the
zero-rows error are different values; and on the relational store nil is
returned exactly when one row was added. -/
theorem mark_result_mapping {σ : Type} (db : Driver σ) (s : σ) (bh : Hash) (li : Nat)
    (id : JobIDArg) (name : String) (hname : jobIDName id = .ok name) :
    (∀ e, (db.Exec s ⟨name, bh, li, id⟩).2.Error = some e →
      MarkBroadcastConsumed db s bh li id
        = .ret (db.Exec s ⟨name, bh, li, id⟩).1
            (some (.wrap e "while marking log broadcast as consumed"))) ∧
    ((db.Exec s ⟨name, bh, li, id⟩).2.Error = none →
      (db.Exec s ⟨name, bh, li, id⟩).2.RowsAffected = 0 →
      MarkBroadcastConsumed db s bh li id
        = .ret (db.Exec s ⟨name, bh, li, id⟩).1
            (some (.errorf "cannot mark log broadcast as consumed: does not exist"))) ∧
    (MarkBroadcastConsumed db s bh li id = .ret (db.Exec s ⟨name, bh, li, id⟩).1 none ↔
      (db.Exec s ⟨name, bh, li, id⟩).2.Error = none ∧
      (db.Exec s ⟨name, bh, li, id⟩).2.RowsAffected ≠ 0) ∧
    (∀ e : GoError, GoError.wrap e "while marking log broadcast as consumed"
      ≠ GoError.errorf "cannot mark log broadcast as consumed: does not exist") ∧
    (∀ st : Store, (MarkBroadcastConsumed sqlStore st bh li id).value = some none ↔
      (MarkBroadcastConsumed sqlStore st bh li id).state.rows.length = st.rows.length + 1) := by
  refine ⟨?_, ?_, ?_, ?_, ?_⟩
  · intro e he
    simp [MarkBroadcastConsumed, hname, he]
  · intro he h0
    simp [MarkBroadcastConsumed, hname, he, h0]
  · simp only [MarkBroadcastConsumed, hname]
    cases he : (db.Exec s ⟨name, bh, li, id⟩).2.Error with
    | some e => simp
    | none =>
      by_cases h0 : (db.Exec s ⟨name, bh, li, id⟩).2.RowsAffected = 0 <;> simp [h0]
  · intro e h
    cases h
  · intro st
    have hk : ∃ c, knownCol id = some c := by
      cases id <;> simp_all [jobIDName, knownCol]
    obtain ⟨c, hc⟩ := hk
    rw [mark_sql_eq st bh li hc]
    cases hf : st.fault with
    | some e => simp [Outcome.value, Outcome.state]
    | none =>
      by_cases hany : st.rows.any (keyMatches bh li c) = true
      · cases hp : st.onDuplicate <;> simp [hany, Outcome.value, Outcome.state]
      · simp [hany, Outcome.value, Outcome.state]

/-- Witness of C8: the three outcomes on the relational store: a store whose
connection is down, a duplicate on the store that drops duplicates silently,
and a fresh key. -/
theorem mark_result_mapping_witness :
    MarkBroadcastConsumed sqlStore downStore 170 3 (.int32 42)
        = .ret downStore (some (.wrap (.store "connection refused")
            "while marking log broadcast as consumed")) ∧
    MarkBroadcastConsumed sqlStore oneRowSkipStore 170 3 (.int32 42)
        = .ret oneRowSkipStore
            (some (.errorf "cannot mark log broadcast as consumed: does not exist")) ∧
    MarkBroadcastConsumed sqlStore emptyStore 170 3 (.int32 42)
        = .ret ⟨[⟨170, 3, none, some 42, 0, true⟩], none, .reject, 0, false⟩ none :=
  ⟨(mark_result_mapping sqlStore downStore 170 3 (.int32 42) "job_id_v2" rfl).1
      (.store "connection refused") (by decide),
   (mark_result_mapping sqlStore oneRowSkipStore 170 3 (.int32 42) "job_id_v2" rfl).2.1
      (by decide) (by decide),
   (mark_result_mapping sqlStore emptyStore 170 3 (.int32 42) "job_id_v2" rfl).2.2.1.mpr
      ⟨by decide, by decide⟩⟩

/-- C9 (monotonic consumption, I2): on the relational store every call of
either operation leaves the rows that were there in place and unchanged, a
lookup adds none, and every row a mark adds has `consumed = true`; hence a
lookup that returned `(true, nil)` returns `(true, nil)` after any further
sequence of calls of the two operations on that store. -/
theorem monotonic_consumption :
    (∀ (st : Store) (c : Call), ∃ added : List LogBroadcast,
      (Call.run st c).rows = st.rows ++ added ∧ (∀ r ∈ added, r.consumed = true) ∧
      (∀ bh li id, c = .was bh li id → added = [])) ∧
    (∀ (st : Store) (bh : Hash) (li : Nat) (id : JobIDArg) (cs : List Call),
      (WasBroadcastConsumed sqlStore st bh li id).value = some (true, none) →
      (WasBroadcastConsumed sqlStore (runCalls st cs) bh li id).value = some (true, none)) := by
  constructor
  · intro st c
    cases c with
    | was bh li id =>
      refine ⟨[], ?_, by simp, fun _ _ _ _ => rfl⟩
      simp [Call.run, was_state]
    | mark bh li id =>
      rcases call_run_cases st (.mark bh li id) with h | ⟨new, hnew, h⟩
      · exact ⟨[], by simp [h], by simp, fun _ _ _ hc => by cases hc⟩
      · refine ⟨[new], by simp [h], ?_, fun _ _ _ hc => by cases hc⟩
        intro r hr
        rw [List.mem_singleton] at hr
        rw [hr]
        exact hnew
  · intro st bh li id cs
    induction cs generalizing st with
    | nil => intro h; exact h
    | cons c cs ih =>
      intro h
      simp only [runCalls, List.foldl_cons]
      apply ih
      rcases call_run_cases st c with hc | ⟨new, -, hc⟩
      · rw [hc]; exact h
      · rw [hc]; exact was_true_append st bh li id new h

/-- Witness of C9: after a mark for job 42, a mark for the legacy job 42, a
repeated mark and a lookup leave the answer for job 42 at `(true, nil)`. -/
theorem monotonic_consumption_witness :
    (WasBroadcastConsumed sqlStore
      (runCalls oneRowStore [.mark 170 3 (.JobID 42), .mark 170 3 (.int32 42),
        .was 170 3 (.JobID 42), .mark 170 4 (.int32 42)]) 170 3 (.int32 42)).value
      = some (true, none) :=
  monotonic_consumption.2 oneRowStore 170 3 (.int32 42) _ (by decide)

/-- C10 (read-only lookup): on the relational store `WasBroadcastConsumed`
leaves the store exactly as it found it, whatever it returns, so a second call
with the same key returns what the first returned; and on every database
handle the only statement it issues, for an id with column `name`, is the
SELECT on that column. -/
theorem lookup_read_only (st : Store) (bh : Hash) (li : Nat) (id : JobIDArg) :
    (WasBroadcastConsumed sqlStore st bh li id).state = st ∧
    WasBroadcastConsumed sqlStore (WasBroadcastConsumed sqlStore st bh li id).state bh li id
      = WasBroadcastConsumed sqlStore st bh li id ∧
    (∀ (σ : Type) (db : Driver σ) (s : σ) (name : String), jobIDName id = .ok name →
      (WasBroadcastConsumed db s bh li id).state
        = (db.RawRowScan s ⟨name, bh, li, id⟩).1) := by
  refine ⟨was_state st bh li id, by rw [was_state], ?_⟩
  intro σ db s name hname
  simp only [WasBroadcastConsumed, hname]
  split <;> rfl

/-- Witness of C10: the lookup for job 42 on a store holding its record. -/
theorem lookup_read_only_witness :
    (WasBroadcastConsumed sqlStore oneRowStore 170 3 (.int32 42)).state
      = (sqlStore.RawRowScan oneRowStore ⟨"job_id_v2", 170, 3, .int32 42⟩).1 :=
  (lookup_read_only oneRowStore 170 3 (.int32 42)).2.2 Store sqlStore oneRowStore "job_id_v2" rfl

end LogORM
